import Mathlib

/-!
A verification development for the tagged-message endpoint model underlying
the UCX-Py introduction notebook (`Notebooks/Intro_to_UCX-Py.ipynb`).

The notebook itself contains the listener callback and the client exchange
cell; the transport core it calls into (Worker, Endpoint, Listener, Tag
Allocator, Progress Driver) is not part of the repository's sources and is
modelled from the design specification. Definitions taken from the notebook
cells carry the notebook cell in their doc comment; definitions modelled from
the specification say so explicitly.
-/

/-- One endpoint-visible event, used to trace the order of operations a
callback performs on its endpoint. -/
inductive EpEvent where
  | recvEvent (nbytes : Nat)
  | sendEvent (nbytes : Nat)
deriving DecidableEq

/-- The five error kinds of the design specification's error-handling design. -/
inductive UcxError where
  | transportError
  | connectionClosed
  | cancelled
  | exhausted
  | bindFailure
deriving DecidableEq

/-- Outcome of driving one submitted operation: completed with data, still
pending, or failed with a specific error kind. -/
inductive OpOutcome where
  | ok (data : List Nat)
  | pending
  | err (e : UcxError)
deriving DecidableEq

/-- Modelled from the spec: the observable state of one established
bidirectional connection as seen from one side. `inbox` holds the messages
the peer has sent (in order, each a list of byte values), `outbox` the
messages sent to the peer, `log` the trace of completed operations. -/
structure Conn where
  inbox : List (List Nat)
  outbox : List (List Nat)
  log : List EpEvent
  closed : Bool
  cancelledFlag : Bool
deriving DecidableEq

/-- A fresh connection whose peer has already queued `msgs`. -/
def Conn.init (msgs : List (List Nat)) : Conn :=
  ⟨msgs, [], [], false, false⟩

/-- Modelled from the spec: one completion step of a tagged `recv` expecting
exactly `len` bytes. A recv either fully fills the requested length or fails
with a specific error kind; a message of the wrong length is a truncation
error, never a partial success. An empty inbox means the operation is still
pending. -/
def recvStep (c : Conn) (len : Nat) : OpOutcome × Conn :=
  if c.cancelledFlag then (OpOutcome.err UcxError.cancelled, c)
  else if c.closed then (OpOutcome.err UcxError.connectionClosed, c)
  else
    match c.inbox with
    | [] => (OpOutcome.pending, c)
    | m :: rest =>
      if m.length = len then
        (OpOutcome.ok m, { c with inbox := rest, log := c.log ++ [EpEvent.recvEvent len] })
      else
        (OpOutcome.err UcxError.transportError, { c with inbox := rest })

/-- `await ep.recv(buf)` with a buffer of `len` bytes: returns the received
bytes and the successor connection state, or `none` when the operation does
not complete successfully in this trace. -/
def recvAwait (c : Conn) (len : Nat) : Option (List Nat × Conn) :=
  match recvStep c len with
  | (OpOutcome.ok d, c') => some (d, c')
  | _ => none

/-- `await ep.send(m)`: queues the whole message to the peer, or fails when
the connection is closed or cancelled. -/
def sendAwait (c : Conn) (m : List Nat) : Option Conn :=
  if c.cancelledFlag || c.closed then none
  else some { c with outbox := c.outbox ++ [m], log := c.log ++ [EpEvent.sendEvent m.length] }

/-- NumPy `a + 1` on a `dtype="u1"` (8-bit unsigned) array: each element is
incremented modulo 2^8. -/
def npAddOneU1 (a : List Nat) : List Nat :=
  a.map (fun b => (b + 1) % 256)

/-- Little-endian base-256 encoding of `n` into `k` bytes (the machine
representation of the NumPy `uint64` scalar when `k = 8`). -/
def encodeLE : Nat → Nat → List Nat
  | 0, _ => []
  | k + 1, n => n % 256 :: encodeLE k (n / 256)

/-- Little-endian base-256 decoding, inverse of `encodeLE` (the value
`int(msg_size[0])` read back from the 8 received bytes). -/
def decodeLE : List Nat → Nat
  | [] => 0
  | b :: bs => b + 256 * decodeLE bs

/-- The listener callback of the notebook: receive the 8-byte (one `uint64`)
size message, receive that many payload bytes, and send back the payload with
every byte incremented (`reply = msg + 1` on `dtype="u1"`). -/
def listener_callback (c : Conn) : Option Conn :=
  (recvAwait c 8).bind fun sc =>
    (recvAwait sc.2 (decodeLE sc.1)).bind fun mc =>
      sendAwait mc.2 (npAddOneU1 mc.1)

/-- The client exchange cell of the notebook, generalized over the payload:
the client sends `msg_size = [msg.nbytes]` as a `uint64` then `msg`, the
listener callback runs, and the client receives the reply into a buffer of
`msg.length` bytes. Returns the buffer the client received. -/
def roundTrip (msg : List Nat) : Option (List Nat) :=
  match listener_callback (Conn.init [encodeLE 8 msg.length, msg]) with
  | none => none
  | some srv =>
    match recvAwait (Conn.init srv.outbox) msg.length with
    | none => none
    | some (reply, _) => some reply

theorem encodeLE_length (k n : Nat) : (encodeLE k n).length = k := by
  induction k generalizing n with
  | zero => rfl
  | succ k ih => simp [encodeLE, ih]

theorem decodeLE_encodeLE (k n : Nat) (h : n < 256 ^ k) : decodeLE (encodeLE k n) = n := by
  induction k generalizing n with
  | zero =>
    interval_cases n
    rfl
  | succ k ih =>
    have hdiv : n / 256 < 256 ^ k := by
      rw [Nat.div_lt_iff_lt_mul (by norm_num)]
      rw [pow_succ] at h
      exact h
    simp only [encodeLE, decodeLE, ih (n / 256) hdiv]
    exact Nat.mod_add_div n 256

theorem npAddOneU1_length (a : List Nat) : (npAddOneU1 a).length = a.length := by
  simp [npAddOneU1]

/-- The round trip delivers exactly the listener's incremented reply. -/
theorem roundTrip_eq (msg : List Nat) (h : msg.length ≤ 10 ^ 9) :
    roundTrip msg = some (npAddOneU1 msg) := by
  have hlt : msg.length < 256 ^ 8 := lt_of_le_of_lt h (by norm_num)
  have h1 : (encodeLE 8 msg.length).length = 8 := encodeLE_length 8 msg.length
  have h2 : decodeLE (encodeLE 8 msg.length) = msg.length := decodeLE_encodeLE 8 msg.length hlt
  simp [roundTrip, listener_callback, recvAwait, recvStep, sendAwait, Conn.init, h1, h2,
    npAddOneU1_length]

/-- C1: for every payload of length up to 10^9 bytes sent as an 8-byte length
message followed by the payload, with the listener receiving the size, then
the payload, and sending back the payload with every byte incremented, the
buffer the client receives equals the original payload incremented per-byte
(so in particular for lengths 0, 1 and 10^9). -/
theorem C1_round_trip_increment (msg : List Nat) (h : msg.length ≤ 10 ^ 9) :
    roundTrip msg = some (npAddOneU1 msg) :=
  roundTrip_eq msg h

/-- Concrete round trips: the empty payload and a two-byte payload. -/
theorem C1_round_trip_increment_witness :
    roundTrip [] = some (npAddOneU1 []) ∧ roundTrip [5, 255] = some (npAddOneU1 [5, 255]) :=
  ⟨C1_round_trip_increment [] (by norm_num),
   C1_round_trip_increment [5, 255] (by norm_num)⟩

/-- A successful `recvAwait` fills exactly the requested length, leaves the
outbox and the closure flags untouched, and appends one recv event. -/
theorem recvAwait_spec (c : Conn) (len : Nat) (d : List Nat) (c' : Conn)
    (h : recvAwait c len = some (d, c')) :
    d.length = len ∧ c'.log = c.log ++ [EpEvent.recvEvent len] ∧ c'.outbox = c.outbox ∧
      c'.closed = c.closed ∧ c'.cancelledFlag = c.cancelledFlag := by
  rcases c with ⟨bin, bout, tr, cl, ca⟩
  cases ca
  · cases cl
    · cases bin with
      | nil => simp [recvAwait, recvStep] at h
      | cons m rest =>
        by_cases hm : m.length = len
        · simp only [recvAwait, recvStep, Bool.false_eq_true, if_false, if_pos hm,
            Option.some.injEq, Prod.mk.injEq] at h
          obtain ⟨hd, hc⟩ := h
          subst hd
          subst hc
          exact ⟨hm, rfl, rfl, rfl, rfl⟩
        · simp [recvAwait, recvStep, hm] at h
    · simp [recvAwait, recvStep] at h
  · simp [recvAwait, recvStep] at h

/-- A successful `sendAwait` appends exactly the sent message to the outbox,
appends one send event, and leaves the inbox and flags untouched. -/
theorem sendAwait_spec (c : Conn) (m : List Nat) (c' : Conn)
    (h : sendAwait c m = some c') :
    c'.outbox = c.outbox ++ [m] ∧ c'.log = c.log ++ [EpEvent.sendEvent m.length] ∧
      c'.inbox = c.inbox := by
  unfold sendAwait at h
  split at h
  · exact absurd h (by simp)
  · simp only [Option.some.injEq] at h
    subst h
    exact ⟨rfl, rfl, rfl⟩

/-- C2: a recv that completes successfully has filled exactly `len` bytes; a
recv never completes successfully with a partially filled buffer — a closed
connection fails with `ConnectionClosed`, a cancelled one with `Cancelled`,
and a message of the wrong length fails with `TransportError` instead of being
delivered truncated. -/
theorem C2_recv_exact_fill (c : Conn) (len : Nat) :
    (∀ d c', recvStep c len = (OpOutcome.ok d, c') → d.length = len) ∧
    (c.cancelledFlag = true → (recvStep c len).1 = OpOutcome.err UcxError.cancelled) ∧
    (c.cancelledFlag = false → c.closed = true →
      (recvStep c len).1 = OpOutcome.err UcxError.connectionClosed) ∧
    (∀ m rest, c.cancelledFlag = false → c.closed = false → c.inbox = m :: rest →
      m.length ≠ len → (recvStep c len).1 = OpOutcome.err UcxError.transportError) := by
  refine ⟨?_, ?_, ?_, ?_⟩
  · intro d c' h
    have h' : recvAwait c len = some (d, c') := by
      unfold recvAwait
      rw [h]
    exact (recvAwait_spec c len d c' h').1
  · intro hcanc
    simp [recvStep, hcanc]
  · intro hcanc hclosed
    simp [recvStep, hcanc, hclosed]
  · intro m rest hcanc hclosed hin hne
    simp [recvStep, hcanc, hclosed, hin, hne]

/-- A concrete connection: an exact-length message is delivered whole, a
closed connection reports `ConnectionClosed`, a wrong-length message reports
`TransportError`. -/
theorem C2_recv_exact_fill_witness :
    (recvStep (Conn.init [[1, 2, 3]]) 3 =
        (OpOutcome.ok [1, 2, 3], ⟨[], [], [EpEvent.recvEvent 3], false, false⟩) →
      ([1, 2, 3] : List Nat).length = 3) ∧
    (recvStep ⟨[], [], [], true, false⟩ 5).1 = OpOutcome.err UcxError.connectionClosed ∧
    (recvStep (Conn.init [[1, 2]]) 3).1 = OpOutcome.err UcxError.transportError :=
  ⟨(C2_recv_exact_fill (Conn.init [[1, 2, 3]]) 3).1 [1, 2, 3] _,
   (C2_recv_exact_fill ⟨[], [], [], true, false⟩ 5).2.2.1 rfl rfl,
   (C2_recv_exact_fill (Conn.init [[1, 2]]) 3).2.2.2 [1, 2] [] rfl rfl rfl (by decide)⟩

/-- The expected reply computed by the client's assertion cell
(`np.testing.assert_array_equal(reply, msg + 1)`): `msg + 1` on the same
`dtype="u1"` array, i.e. 8-bit wraparound arithmetic. -/
def clientExpected (msg : List Nat) : List Nat :=
  npAddOneU1 msg

/-- C9: the per-byte increment applied by the listener is 8-bit unsigned
arithmetic modulo 256 — every reply byte equals (payload byte + 1) mod 2^8, a
payload byte 255 yields a reply byte 0, and the client-side equality check
still holds because the client computes the expected value in the same 8-bit
arithmetic. -/
theorem C9_increment_mod_256 :
    (∀ msg : List Nat, ∀ i, i < msg.length →
      (npAddOneU1 msg).getD i 0 = (msg.getD i 0 + 1) % 256) ∧
    npAddOneU1 [255] = [0] ∧
    (∀ msg : List Nat, msg.length ≤ 10 ^ 9 → roundTrip msg = some (clientExpected msg)) := by
  refine ⟨?_, by decide, ?_⟩
  · intro msg i hi
    rw [npAddOneU1, List.getD_eq_getElem?_getD, List.getD_eq_getElem?_getD,
      List.getElem?_map, List.getElem?_eq_getElem hi]
    rfl
  · intro msg h
    exact roundTrip_eq msg h

/-- The wraparound byte 255 and the round trip at payload `[255]`. -/
theorem C9_increment_mod_256_witness :
    (npAddOneU1 [255]).getD 0 0 = (([255] : List Nat).getD 0 0 + 1) % 256 ∧
    roundTrip [255] = some (clientExpected [255]) :=
  ⟨C9_increment_mod_256.1 [255] 0 (by norm_num),
   C9_increment_mod_256.2.2 [255] (by norm_num)⟩

/-- C10: whenever the listener callback completes, it has performed exactly
two receives followed by exactly one send, in that order — first an 8-byte
size message, then a payload whose byte length equals the integer value
received in the size message — and it has sent exactly one reply whose length
equals the payload length. -/
theorem C10_callback_two_recv_one_send (c c' : Conn)
    (h : listener_callback c = some c') :
    ∃ sizeMsg msg : List Nat, sizeMsg.length = 8 ∧ msg.length = decodeLE sizeMsg ∧
      c'.log = c.log ++ [EpEvent.recvEvent 8, EpEvent.recvEvent (decodeLE sizeMsg),
        EpEvent.sendEvent msg.length] ∧
      c'.outbox = c.outbox ++ [npAddOneU1 msg] ∧ (npAddOneU1 msg).length = msg.length := by
  unfold listener_callback at h
  cases h8 : recvAwait c 8 with
  | none => rw [h8] at h; exact absurd h (by simp)
  | some p =>
    obtain ⟨sizeMsg, c1⟩ := p
    simp only [h8, Option.some_bind'] at h
    cases hn : recvAwait c1 (decodeLE sizeMsg) with
    | none => rw [hn] at h; exact absurd h (by simp)
    | some q =>
      obtain ⟨msg, c2⟩ := q
      simp only [hn, Option.some_bind'] at h
      obtain ⟨hl8, hlog1, hout1, _, _⟩ := recvAwait_spec c 8 sizeMsg c1 h8
      obtain ⟨hln, hlog2, hout2, _, _⟩ := recvAwait_spec c1 (decodeLE sizeMsg) msg c2 hn
      obtain ⟨hout3, hlog3, _⟩ := sendAwait_spec c2 (npAddOneU1 msg) c' h
      refine ⟨sizeMsg, msg, hl8, hln, ?_, ?_, npAddOneU1_length msg⟩
      · rw [hlog3, hlog2, hlog1, npAddOneU1_length]
        simp [hln]
      · rw [hout3, hout2, hout1]

/-- A concrete completed callback: size message encoding 2, payload `[7, 255]`,
reply `[8, 0]`; the trace is recv 8, recv 2, send 2. -/
theorem C10_callback_two_recv_one_send_witness :
    ∃ sizeMsg msg : List Nat, sizeMsg.length = 8 ∧ msg.length = decodeLE sizeMsg ∧
      (⟨[], [[8, 0]], [EpEvent.recvEvent 8, EpEvent.recvEvent 2, EpEvent.sendEvent 2],
          false, false⟩ : Conn).log =
        (Conn.init [[2, 0, 0, 0, 0, 0, 0, 0], [7, 255]]).log ++
          [EpEvent.recvEvent 8, EpEvent.recvEvent (decodeLE sizeMsg),
            EpEvent.sendEvent msg.length] ∧
      (⟨[], [[8, 0]], [EpEvent.recvEvent 8, EpEvent.recvEvent 2, EpEvent.sendEvent 2],
          false, false⟩ : Conn).outbox =
        (Conn.init [[2, 0, 0, 0, 0, 0, 0, 0], [7, 255]]).outbox ++ [npAddOneU1 msg] ∧
      (npAddOneU1 msg).length = msg.length :=
  C10_callback_two_recv_one_send (Conn.init [[2, 0, 0, 0, 0, 0, 0, 0], [7, 255]]) _ (by decide)

/-- Modelled from the spec: a (send-tag, recv-tag) pair assigned to an
Endpoint at connection establishment. -/
structure TagPair where
  sendTag : Nat
  recvTag : Nat
deriving DecidableEq

/-- Status of one submitted Operation. -/
inductive OpStatus where
  | inFlight
  | doneOp
  | cancelledOp
deriving DecidableEq

/-- Modelled from the spec: one submitted send or recv Operation, tracked
from submission until completion or cancellation. -/
structure Oper where
  opId : Nat
  status : OpStatus
deriving DecidableEq

/-- Modelled from the spec: one established connection on a Worker, holding
its tag pair, its open/closed mark, and its pending Operations. -/
structure Endpoint where
  epId : Nat
  tags : TagPair
  isOpen : Bool
  pendingOps : List Oper
deriving DecidableEq

/-- Modelled from the spec: the Worker-owned bookkeeping — the Endpoints of
its active connection set, the next fresh Endpoint id, and the pool of
released tag pairs. -/
structure Worker where
  endpoints : List Endpoint
  nextEpId : Nat
  freePool : List TagPair
deriving DecidableEq

/-- The Worker before any connection is established. -/
def initWorker : Worker :=
  ⟨[], 0, []⟩

/-- Tag values currently held by the open Endpoints of the Worker, both
directions. -/
def heldTags (w : Worker) : List Nat :=
  ((w.endpoints.filter fun e => e.isOpen).map fun e => e.tags.sendTag) ++
    ((w.endpoints.filter fun e => e.isOpen).map fun e => e.tags.recvTag)

/-- The largest currently-held tag value. -/
def maxHeld (w : Worker) : Nat :=
  (heldTags w).foldr max 0

/-- Modelled from the spec: `allocate()` returns a fresh tag pair not
currently held by any open Endpoint of the Worker (both values strictly
above every held tag value). -/
def allocate (w : Worker) : TagPair :=
  ⟨maxHeld w + 1, maxHeld w + 2⟩

/-- Modelled from the spec: accepting (or connecting) a new connection —
atomically allocates a tag pair and adds a fresh open Endpoint. -/
def acceptConn (w : Worker) : Worker :=
  { endpoints := w.endpoints ++ [⟨w.nextEpId, allocate w, true, []⟩],
    nextEpId := w.nextEpId + 1,
    freePool := w.freePool }

/-- Closing one Endpoint record: cancel its in-flight Operations and mark it
closed. -/
def closeOne (e : Endpoint) : Endpoint :=
  { e with
    isOpen := false,
    pendingOps := e.pendingOps.map fun op =>
      if op.status = OpStatus.inFlight then { op with status := OpStatus.cancelledOp } else op }

/-- Modelled from the spec: `close()` on the Endpoint `eid` of the Worker —
when an open Endpoint with that id exists it is marked closed, its in-flight
Operations are cancelled, and its tag pair is released to the free pool;
otherwise the call is a no-op (no error is raised). -/
def closeEp (w : Worker) (eid : Nat) : Worker :=
  match w.endpoints.find? (fun e => e.epId == eid && e.isOpen) with
  | none => w
  | some e =>
    { w with
      endpoints := w.endpoints.map fun e' => if e'.epId == eid then closeOne e' else e',
      freePool := w.freePool ++ [e.tags] }

theorem closeEp_of_find_none (w : Worker) (eid : Nat)
    (hf : w.endpoints.find? (fun e => e.epId == eid && e.isOpen) = none) :
    closeEp w eid = w := by
  unfold closeEp
  rw [hf]

theorem closeEp_of_find_some (w : Worker) (eid : Nat) (e0 : Endpoint)
    (hf : w.endpoints.find? (fun e => e.epId == eid && e.isOpen) = some e0) :
    closeEp w eid =
      { w with
        endpoints := w.endpoints.map fun e' => if e'.epId == eid then closeOne e' else e',
        freePool := w.freePool ++ [e0.tags] } := by
  unfold closeEp
  rw [hf]

theorem le_foldr_max (l : List Nat) (x : Nat) (hx : x ∈ l) : x ≤ l.foldr max 0 := by
  induction l with
  | nil => cases hx
  | cons a l ih =>
    simp only [List.foldr_cons]
    rcases List.mem_cons.mp hx with h | h
    · subst h
      exact le_max_left _ _
    · exact le_trans (ih h) (le_max_right _ _)

theorem tags_le_maxHeld (w : Worker) (e : Endpoint) (he : e ∈ w.endpoints)
    (ho : e.isOpen = true) :
    e.tags.sendTag ≤ maxHeld w ∧ e.tags.recvTag ≤ maxHeld w := by
  have hmem : e ∈ w.endpoints.filter fun e => e.isOpen := by
    rw [List.mem_filter]
    exact ⟨he, ho⟩
  constructor
  · exact le_foldr_max _ _ (by
      unfold heldTags
      exact List.mem_append_left _ (List.mem_map_of_mem _ hmem))
  · exact le_foldr_max _ _ (by
      unfold heldTags
      exact List.mem_append_right _ (List.mem_map_of_mem _ hmem))

/-- The tag-disjointness invariant: no two simultaneously-open Endpoints of
one Worker share a tag value in the same direction. -/
def tagInvariant (w : Worker) : Prop :=
  ∀ e1 ∈ w.endpoints, ∀ e2 ∈ w.endpoints,
    e1.isOpen = true → e2.isOpen = true → e1.epId ≠ e2.epId →
      e1.tags.sendTag ≠ e2.tags.sendTag ∧ e1.tags.recvTag ≠ e2.tags.recvTag

/-- The freshly allocated pair collides with no held tag value in either
direction. -/
theorem allocate_fresh (w : Worker) (e : Endpoint) (he : e ∈ w.endpoints)
    (ho : e.isOpen = true) :
    (allocate w).sendTag ≠ e.tags.sendTag ∧ (allocate w).recvTag ≠ e.tags.recvTag ∧
      (allocate w).sendTag ≠ e.tags.recvTag ∧ (allocate w).recvTag ≠ e.tags.sendTag := by
  obtain ⟨hs, hr⟩ := tags_le_maxHeld w e he ho
  unfold allocate
  refine ⟨?_, ?_, ?_, ?_⟩ <;> simp only [] <;> omega

theorem tagInvariant_accept (w : Worker) (h : tagInvariant w) :
    tagInvariant (acceptConn w) := by
  intro e1 h1 e2 h2 ho1 ho2 hne
  simp only [acceptConn, List.mem_append, List.mem_singleton] at h1 h2
  rcases h1 with h1 | h1 <;> rcases h2 with h2 | h2
  · exact h e1 h1 e2 h2 ho1 ho2 hne
  · subst h2
    obtain ⟨f1, f2, _, _⟩ := allocate_fresh w e1 h1 ho1
    exact ⟨fun hc => f1 hc.symm, fun hc => f2 hc.symm⟩
  · subst h1
    obtain ⟨f1, f2, _, _⟩ := allocate_fresh w e2 h2 ho2
    exact ⟨f1, f2⟩
  · subst h1
    subst h2
    exact absurd rfl hne

theorem tagInvariant_close (w : Worker) (eid : Nat) (h : tagInvariant w) :
    tagInvariant (closeEp w eid) := by
  cases hf : w.endpoints.find? (fun e => e.epId == eid && e.isOpen) with
  | none =>
    rw [closeEp_of_find_none w eid hf]
    exact h
  | some e0 =>
    rw [closeEp_of_find_some w eid e0 hf]
    intro e1 h1 e2 h2 ho1 ho2 hne
    simp only [List.mem_map] at h1 h2
    obtain ⟨a1, ha1, he1⟩ := h1
    obtain ⟨a2, ha2, he2⟩ := h2
    by_cases k1 : a1.epId == eid
    · rw [if_pos k1] at he1
      subst he1
      exact absurd ho1 (by simp [closeOne])
    · rw [if_neg k1] at he1
      subst he1
      by_cases k2 : a2.epId == eid
      · rw [if_pos k2] at he2
        subst he2
        exact absurd ho2 (by simp [closeOne])
      · rw [if_neg k2] at he2
        subst he2
        exact h a1 ha1 a2 ha2 ho1 ho2 hne

/-- One Worker transition: accept/connect a connection (which allocates and
assigns a tag pair) or close an Endpoint (which releases its pair). -/
inductive WStep : Worker → Worker → Prop where
  | accept (w : Worker) : WStep w (acceptConn w)
  | close (w : Worker) (eid : Nat) : WStep w (closeEp w eid)

/-- Worker states reachable from the initial (empty) Worker. -/
inductive ReachableW : Worker → Prop where
  | init : ReachableW initWorker
  | step {w w' : Worker} : ReachableW w → WStep w w' → ReachableW w'

/-- C3: in every reachable Worker state the tag pairs held by distinct
simultaneously-open Endpoints are disjoint — no tag value is shared in the
same direction — the invariant being preserved by every accept/connect
(whose allocation assigns a pair) and by every close (which releases one);
moreover `allocate` returns a pair not currently held by any open Endpoint
in either direction. -/
theorem C3_tag_pairs_disjoint (w : Worker) (h : ReachableW w) :
    tagInvariant w ∧
      ∀ e ∈ w.endpoints, e.isOpen = true →
        (allocate w).sendTag ≠ e.tags.sendTag ∧ (allocate w).recvTag ≠ e.tags.recvTag ∧
          (allocate w).sendTag ≠ e.tags.recvTag ∧ (allocate w).recvTag ≠ e.tags.sendTag := by
  refine ⟨?_, fun e he ho => allocate_fresh w e he ho⟩
  induction h with
  | init => intro e1 h1; cases h1
  | step hr hs ih =>
    cases hs with
    | accept => exact tagInvariant_accept _ ih
    | close eid => exact tagInvariant_close _ eid ih

/-- A reachable Worker with two open Endpoints. -/
theorem C3_tag_pairs_disjoint_witness :
    tagInvariant (acceptConn (acceptConn initWorker)) ∧
      ∀ e ∈ (acceptConn (acceptConn initWorker)).endpoints, e.isOpen = true →
        (allocate (acceptConn (acceptConn initWorker))).sendTag ≠ e.tags.sendTag ∧
          (allocate (acceptConn (acceptConn initWorker))).recvTag ≠ e.tags.recvTag ∧
          (allocate (acceptConn (acceptConn initWorker))).sendTag ≠ e.tags.recvTag ∧
          (allocate (acceptConn (acceptConn initWorker))).recvTag ≠ e.tags.sendTag :=
  C3_tag_pairs_disjoint _
    (ReachableW.step (ReachableW.step ReachableW.init (WStep.accept _)) (WStep.accept _))

/-- Modelled from the spec: a Listener handle — the bound port while live,
and whether it still accepts connections. Closing stops acceptance and
releases the port. -/
structure Listener where
  port : Option Nat
  accepting : Bool
deriving DecidableEq

/-- Modelled from the spec: `close()` on a Listener — stops accepting and
releases the port; raises no error when already closed. -/
def closeListener (_l : Listener) : Listener :=
  ⟨none, false⟩

/-- After closing an Endpoint, no open Endpoint with that id remains, so a
second close finds nothing to do. -/
theorem find_after_closeEp (w : Worker) (eid : Nat) :
    ((w.endpoints.map fun e' => if e'.epId == eid then closeOne e' else e').find?
      (fun e => e.epId == eid && e.isOpen)) = none := by
  rw [List.find?_eq_none]
  intro x hx
  simp only [List.mem_map] at hx
  obtain ⟨a, ha, hax⟩ := hx
  by_cases k : a.epId == eid
  · rw [if_pos k] at hax
    subst hax
    simp [closeOne]
  · rw [if_neg k] at hax
    subst hax
    simp [k]

/-- C4: calling `close()` a second time on the same Endpoint or Listener is a
no-op — the state after the second close equals the state after the first
(both are total functions, so no error is raised), and in particular the free
pool is unchanged, so the tag pair released by the first close is not
released a second time. -/
theorem C4_close_twice_noop (w : Worker) (eid : Nat) (l : Listener) :
    closeEp (closeEp w eid) eid = closeEp w eid ∧
      (closeEp (closeEp w eid) eid).freePool = (closeEp w eid).freePool ∧
      closeListener (closeListener l) = closeListener l := by
  have hidem : closeEp (closeEp w eid) eid = closeEp w eid := by
    cases hf : w.endpoints.find? (fun e => e.epId == eid && e.isOpen) with
    | none =>
      rw [closeEp_of_find_none w eid hf, closeEp_of_find_none w eid hf]
    | some e0 =>
      rw [closeEp_of_find_some w eid e0 hf]
      exact closeEp_of_find_none _ eid (find_after_closeEp w eid)
  exact ⟨hidem, by rw [hidem], rfl⟩

/-- Modelled from the spec: the joint state of one Listener and its Worker,
together with the ids of Endpoints whose accept callbacks are still
running. -/
structure Sys where
  worker : Worker
  lst : Listener
  running : List Nat
deriving DecidableEq

/-- Modelled from the spec: closing the Listener of the system — stops
acceptance and releases the port, touching neither the Worker's Endpoints
nor the running callbacks. -/
def closeListenerS (s : Sys) : Sys :=
  { s with lst := closeListener s.lst }

/-- Modelled from the spec: an inbound connection is accepted only while the
Listener accepts; acceptance allocates a tag pair, adds the new Endpoint and
starts its callback. -/
def acceptSys (s : Sys) : Sys :=
  if s.lst.accepting then
    { s with worker := acceptConn s.worker, running := s.running ++ [s.worker.nextEpId] }
  else s

/-- C6: closing a Listener stops acceptance of new connections but leaves
every already-produced Endpoint — including those whose callbacks are still
running — and all their Operations unchanged. -/
theorem C6_listener_close_frame (s : Sys) :
    (closeListenerS s).worker = s.worker ∧
      (closeListenerS s).worker.endpoints = s.worker.endpoints ∧
      (closeListenerS s).running = s.running ∧
      (closeListenerS s).lst.accepting = false ∧
      acceptSys (closeListenerS s) = closeListenerS s := by
  refine ⟨rfl, rfl, rfl, rfl, ?_⟩
  simp [acceptSys, closeListenerS, closeListener]

/-- The possible exit paths of a callback task. -/
inductive ExitPath where
  | normalExit
  | errorExit
  | cancelExit
deriving DecidableEq

/-- Modelled from the spec: the guarded release path that runs when the
listener callback for Endpoint `eid` exits — whatever the exit path, it
closes the Endpoint exactly as an explicit `closeEp` and removes the callback
from the running set. -/
def finishCallback (_p : ExitPath) (s : Sys) (eid : Nat) : Sys :=
  { s with
    worker := closeEp s.worker eid,
    running := s.running.filter fun i => i != eid }

/-- Well-formedness: a closed Endpoint has no Operation still in flight. -/
def closedOpsSettled (w : Worker) : Prop :=
  ∀ e ∈ w.endpoints, e.isOpen = false → ∀ op ∈ e.pendingOps, op.status ≠ OpStatus.inFlight

/-- C7: when the listener callback returns, the Endpoint it was passed is
implicitly closed with guarantees identical to an explicit `close()` — the
resulting Worker state is exactly `closeEp`, the result does not depend on
the exit path, running the release path a second time releases nothing more
(close runs exactly once), and afterwards the Endpoint is unusable with no
Operation left in flight. -/
theorem C7_callback_return_closes (s : Sys) (eid : Nat) (p q : ExitPath)
    (h : closedOpsSettled s.worker) :
    (finishCallback p s eid).worker = closeEp s.worker eid ∧
      finishCallback p s eid = finishCallback q s eid ∧
      (finishCallback q (finishCallback p s eid) eid).worker.freePool =
        (finishCallback p s eid).worker.freePool ∧
      ∀ e ∈ (finishCallback p s eid).worker.endpoints, e.epId = eid →
        e.isOpen = false ∧ ∀ op ∈ e.pendingOps, op.status ≠ OpStatus.inFlight := by
  refine ⟨rfl, rfl, ?_, ?_⟩
  · show (closeEp (closeEp s.worker eid) eid).freePool = (closeEp s.worker eid).freePool
    rw [(C4_close_twice_noop s.worker eid ⟨none, false⟩).1]
  · intro e he hid
    show e.isOpen = false ∧ ∀ op ∈ e.pendingOps, op.status ≠ OpStatus.inFlight
    have he' : e ∈ (closeEp s.worker eid).endpoints := he
    cases hf : s.worker.endpoints.find? (fun x => x.epId == eid && x.isOpen) with
    | none =>
      rw [closeEp_of_find_none s.worker eid hf] at he'
      have hnot := List.find?_eq_none.mp hf e he'
      simp only [hid, beq_self_eq_true, Bool.true_and, Bool.not_eq_true] at hnot
      exact ⟨hnot, h e he' hnot⟩
    | some e0 =>
      rw [closeEp_of_find_some s.worker eid e0 hf] at he'
      simp only [List.mem_map] at he'
      obtain ⟨a, ha, hae⟩ := he'
      by_cases k : a.epId == eid
      · rw [if_pos k] at hae
        subst hae
        refine ⟨rfl, ?_⟩
        intro op hop
        simp only [closeOne, List.mem_map] at hop
        obtain ⟨op0, _, hop0⟩ := hop
        by_cases ks : op0.status = OpStatus.inFlight
        · rw [if_pos ks] at hop0
          subst hop0
          simp
        · rw [if_neg ks] at hop0
          subst hop0
          exact ks
      · rw [if_neg k] at hae
        subst hae
        exact absurd hid (by simpa using k)

/-- A concrete system in which the callback for Endpoint 0 returns. -/
theorem C7_callback_return_closes_witness :
    (finishCallback ExitPath.normalExit
        ⟨⟨[⟨0, ⟨1, 2⟩, true, [⟨0, OpStatus.inFlight⟩]⟩], 1, []⟩, ⟨some 7, true⟩, [0]⟩ 0).worker =
      closeEp ⟨[⟨0, ⟨1, 2⟩, true, [⟨0, OpStatus.inFlight⟩]⟩], 1, []⟩ 0 ∧
    finishCallback ExitPath.normalExit
        ⟨⟨[⟨0, ⟨1, 2⟩, true, [⟨0, OpStatus.inFlight⟩]⟩], 1, []⟩, ⟨some 7, true⟩, [0]⟩ 0 =
      finishCallback ExitPath.errorExit
        ⟨⟨[⟨0, ⟨1, 2⟩, true, [⟨0, OpStatus.inFlight⟩]⟩], 1, []⟩, ⟨some 7, true⟩, [0]⟩ 0 ∧
    (finishCallback ExitPath.errorExit
        (finishCallback ExitPath.normalExit
          ⟨⟨[⟨0, ⟨1, 2⟩, true, [⟨0, OpStatus.inFlight⟩]⟩], 1, []⟩, ⟨some 7, true⟩, [0]⟩ 0)
        0).worker.freePool =
      (finishCallback ExitPath.normalExit
        ⟨⟨[⟨0, ⟨1, 2⟩, true, [⟨0, OpStatus.inFlight⟩]⟩], 1, []⟩, ⟨some 7, true⟩, [0]⟩
        0).worker.freePool ∧
    ∀ e ∈ (finishCallback ExitPath.normalExit
        ⟨⟨[⟨0, ⟨1, 2⟩, true, [⟨0, OpStatus.inFlight⟩]⟩], 1, []⟩, ⟨some 7, true⟩, [0]⟩
        0).worker.endpoints, e.epId = 0 →
      e.isOpen = false ∧ ∀ op ∈ e.pendingOps, op.status ≠ OpStatus.inFlight :=
  C7_callback_return_closes
    ⟨⟨[⟨0, ⟨1, 2⟩, true, [⟨0, OpStatus.inFlight⟩]⟩], 1, []⟩, ⟨some 7, true⟩, [0]⟩ 0
    ExitPath.normalExit ExitPath.errorExit (by unfold closedOpsSettled; decide)

/-- The two Progress Driver strategies of the design. -/
inductive Strategy where
  | blockingMode
  | nonBlockingMode
deriving DecidableEq

/-- Modelled from the spec: the observable state of the Progress Driver — how
many times `progress()` has been invoked, how many Operations are pending,
and whether the wakeup descriptor has fired. -/
structure DriverState where
  progressCalls : Nat
  pendingCount : Nat
  wakeupFired : Bool
deriving DecidableEq

/-- Modelled from the spec: one scheduler iteration of the Progress Driver.
The non-blocking strategy invokes `progress()` unconditionally, regardless
of pending work, then reschedules itself; the blocking strategy invokes
`progress()` once per wakeup of the descriptor, re-arming the wait, and does
nothing while the descriptor has not fired. -/
def driverStep (strat : Strategy) (s : DriverState) : DriverState :=
  match strat with
  | Strategy.nonBlockingMode => { s with progressCalls := s.progressCalls + 1 }
  | Strategy.blockingMode =>
    if s.wakeupFired then { s with progressCalls := s.progressCalls + 1, wakeupFired := false }
    else s

/-- C5: under the non-blocking strategy every scheduler iteration invokes
`progress()` at least once even with zero pending Operations; under the
blocking strategy no `progress()` call occurs in a step in which the wakeup
descriptor has not fired. -/
theorem C5_progress_strategies (s : DriverState) :
    (s.pendingCount = 0 →
      (driverStep Strategy.nonBlockingMode s).progressCalls = s.progressCalls + 1) ∧
    (s.wakeupFired = false →
      (driverStep Strategy.blockingMode s).progressCalls = s.progressCalls) := by
  constructor
  · intro _
    rfl
  · intro hw
    simp [driverStep, hw]

/-- A concrete idle driver state: zero pending Operations, wakeup not
fired. -/
theorem C5_progress_strategies_witness :
    (driverStep Strategy.nonBlockingMode ⟨3, 0, false⟩).progressCalls = 3 + 1 ∧
      (driverStep Strategy.blockingMode ⟨3, 0, false⟩).progressCalls = 3 :=
  ⟨(C5_progress_strategies ⟨3, 0, false⟩).1 rfl,
   (C5_progress_strategies ⟨3, 0, false⟩).2 rfl⟩

/-- The name of the single recognized environment toggle. -/
def nonBlockingVarName : String :=
  "UCXPY_NON_BLOCKING_MODE"

/-- Modelled from the spec: strategy selection from the process environment —
the single recognized toggle maps `1` to the non-blocking/polling strategy
and anything else (unset, `0`, or any other value) to the default blocking
strategy. -/
def selectStrategy (env : String → Option String) : Strategy :=
  match env nonBlockingVarName with
  | some v => if v = "1" then Strategy.nonBlockingMode else Strategy.blockingMode
  | none => Strategy.blockingMode

/-- C8: the single environment toggle selects the strategy — unset or `0`
selects blocking (the default), `1` selects non-blocking — and no other
environment variable changes the selected behaviour: two environments that
agree on the toggle select the same strategy and hence the same driver
behaviour. -/
theorem C8_env_toggle (env env' : String → Option String) :
    (env nonBlockingVarName = none → selectStrategy env = Strategy.blockingMode) ∧
    (env nonBlockingVarName = some "0" → selectStrategy env = Strategy.blockingMode) ∧
    (env nonBlockingVarName = some "1" → selectStrategy env = Strategy.nonBlockingMode) ∧
    (env nonBlockingVarName = env' nonBlockingVarName →
      selectStrategy env = selectStrategy env' ∧
        ∀ s, driverStep (selectStrategy env) s = driverStep (selectStrategy env') s) := by
  refine ⟨?_, ?_, ?_, ?_⟩
  · intro h
    simp [selectStrategy, h]
  · intro h
    simp [selectStrategy, h]
  · intro h
    simp [selectStrategy, h]
  · intro h
    have hsel : selectStrategy env = selectStrategy env' := by
      unfold selectStrategy
      rw [h]
    exact ⟨hsel, fun s => by rw [hsel]⟩

/-- Concrete environments: empty (blocking), toggle set to `0` (blocking),
toggle set to `1` (non-blocking), and two environments differing only away
from the toggle. -/
theorem C8_env_toggle_witness :
    selectStrategy (fun _ => none) = Strategy.blockingMode ∧
      selectStrategy (fun v => if v = "UCXPY_NON_BLOCKING_MODE" then some "0" else none) =
        Strategy.blockingMode ∧
      selectStrategy (fun v => if v = "UCXPY_NON_BLOCKING_MODE" then some "1" else none) =
        Strategy.nonBlockingMode ∧
      selectStrategy (fun _ => none) =
        selectStrategy (fun v => if v = "UCXPY_NON_BLOCKING_MODE" then none else some "x") :=
  ⟨(C8_env_toggle (fun _ => none) (fun _ => none)).1 rfl,
   (C8_env_toggle (fun v => if v = "UCXPY_NON_BLOCKING_MODE" then some "0" else none)
     (fun _ => none)).2.1 (by simp [nonBlockingVarName]),
   (C8_env_toggle (fun v => if v = "UCXPY_NON_BLOCKING_MODE" then some "1" else none)
     (fun _ => none)).2.2.1 (by simp [nonBlockingVarName]),
   ((C8_env_toggle (fun _ => none)
     (fun v => if v = "UCXPY_NON_BLOCKING_MODE" then none else some "x")).2.2.2
     (by simp [nonBlockingVarName])).1⟩
